import Mathlib

/-!
Verification of the media-stream-hub repository (src/app.py, src/database.py,
src/migrations.py) against its natural-language specification.

The embedding works on `List Char` for the string manipulation done by the
route handler `serve_media` (app.py 236-304) and on explicit list-of-row
states for the SQLite-backed playback-state store (database.py 167-196,
table created in migrations.py 24-36).  Python semantics that the handler
relies on (`os.path.normpath`, `os.path.join`, `os.path.splitext`,
`str.replace`, `str.split`, `int(...)`, `f.read`) are each embedded as an
executable definition, and exceptions are modelled with `Except`: the
handler's blanket `except Exception` (app.py 302-304) catches *every*
raised exception — including the `HTTPException`s raised by
`abort(403/404/416)` — and re-raises `abort(500)`, which the model
reflects by collapsing every `.error` of the inner computation into the
single `genericError` (HTTP 500) response.
-/

set_option maxRecDepth 100000

namespace MediaHub

/-- Embeds Python `str.split(sep)` for a one-character separator
(`range_header.split('-')`, app.py 262).  `"".split(c) = [""]`,
`"a-".split('-') = ["a", ""]`. -/
def splitSep (sep : Char) : List Char → List (List Char)
  | [] => [[]]
  | c :: rest =>
    if c = sep then [] :: splitSep sep rest
    else
      match splitSep sep rest with
      | [] => [[c]]
      | h :: t => (c :: h) :: t

/-- Embeds `range_header.replace('bytes=', '')` (app.py 262): scan left to
right, removing every non-overlapping occurrence of the 6-character
pattern `bytes=`. -/
def stripBytesEq : List Char → List Char
  | 'b' :: 'y' :: 't' :: 'e' :: 's' :: '=' :: rest => stripBytesEq rest
  | c :: rest => c :: stripBytesEq rest
  | [] => []

/-- The characters CPython's `int()` strips as surrounding whitespace
(`Py_UNICODE_ISSPACE`): code points 9-13, 28-32, 133 (NEL), 160 (NBSP),
5760 (Ogham space), 8192-8202 (en/em/thin spaces), 8232 and 8233 (line
and paragraph separators), 8239 (narrow NBSP), 8287 (math space) and
12288 (ideographic space). -/
def pyIntWs (c : Char) : Bool :=
  decide (9 ≤ c.toNat ∧ c.toNat ≤ 13) || decide (28 ≤ c.toNat ∧ c.toNat ≤ 32) ||
  decide (c.toNat = 133) || decide (c.toNat = 160) || decide (c.toNat = 5760) ||
  decide (8192 ≤ c.toNat ∧ c.toNat ≤ 8202) || decide (c.toNat = 8232) ||
  decide (c.toNat = 8233) || decide (c.toNat = 8239) || decide (c.toNat = 8287) ||
  decide (c.toNat = 12288)

/-- ASCII digit test for the int-literal grammar. -/
def pyDigit (c : Char) : Bool :=
  decide (48 ≤ c.toNat ∧ c.toNat ≤ 57)

/-- `int()`'s initial step: strip the surrounding whitespace characters
from both ends. -/
def pyStripWs (s : List Char) : List Char :=
  (((s.dropWhile pyIntWs).reverse).dropWhile pyIntWs).reverse

/-- Continuation of the digit run of a CPython int literal, after at
least one digit has been read into `acc`.  `afterUnderscore` records that
the previous character was an underscore: a digit always extends the run
(and clears the flag), an underscore is allowed only directly after a
digit, and the run may not end on an underscore (`int('1_0') = 10`, but
`int('1__0')`, `int('1_')` raise). -/
def pyNatTail (acc : Nat) (afterUnderscore : Bool) : List Char → Option Nat
  | [] => if afterUnderscore then none else some acc
  | c :: rest =>
    if pyDigit c then pyNatTail (acc * 10 + (c.toNat - 48)) false rest
    else if afterUnderscore = false ∧ c = '_' then pyNatTail acc true rest
    else none

/-- The unsigned digit run of a CPython int literal: a leading digit
followed by digits with single underscores allowed between digits
(`int('_1')` raises, so the run must start with a digit).  `none` when
`int()` would raise `ValueError` on the run.  Digits are ASCII here:
CPython additionally accepts non-ASCII Unicode decimal digits, and no
theorem below depends on the behaviour of such inputs. -/
def pyNat? : List Char → Option Nat
  | [] => none
  | c :: rest => if pyDigit c then pyNatTail (c.toNat - 48) false rest else none

/-- Embeds Python `int(s)` (`int(byte_range[0])` / `int(byte_range[1])`,
app.py 263-264): strip surrounding whitespace, allow one optional sign
attached directly to the digit run (`int(' +5 ') = 5`, `int('+ 5')`
raises), then parse the underscore-grouped digit run. -/
def pyInt? (s : List Char) : Option Int :=
  match pyStripWs s with
  | '-' :: rest => (pyNat? rest).map (fun n => -(n : Int))
  | '+' :: rest => (pyNat? rest).map (fun n => (n : Int))
  | t => (pyNat? t).map (fun n => (n : Int))

/-- `'/'.join(comps)` over the normalized components (posixpath.normpath). -/
def intercalateSlash : List (List Char) → List Char
  | [] => []
  | [x] => x
  | x :: rest => x ++ '/' :: intercalateSlash rest

/-- One step of posixpath.normpath's component loop: skip `''` and `'.'`;
append any component that is not `'..'` — or a `'..'` that must be kept
(relative path with nothing accumulated, or accumulated tail already
`'..'`); otherwise pop the accumulated tail (a `'..'` at an absolute root
simply disappears). -/
def normComp (initialSlashes : Nat) (newComps : List (List Char)) (comp : List Char) :
    List (List Char) :=
  if comp = [] ∨ comp = ['.'] then newComps
  else if comp ≠ ['.', '.'] ∨ (initialSlashes = 0 ∧ newComps = []) ∨
      (newComps ≠ [] ∧ newComps.getLast? = some ['.', '.']) then
    newComps ++ [comp]
  else if newComps ≠ [] then newComps.dropLast
  else newComps

/-- Embeds `os.path.normpath` (posixpath.normpath), used at app.py 242:
collapse `.`/`..`/empty segments, preserving one or exactly two leading
slashes. -/
def pyNormpath (p : List Char) : List Char :=
  if p = [] then ['.']
  else
    let initialSlashes : Nat :=
      if p.take 1 = ['/'] then
        if p.take 2 = ['/', '/'] ∧ p.take 3 ≠ ['/', '/', '/'] then 2 else 1
      else 0
    let comps := splitSep '/' p
    let newComps := comps.foldl (normComp initialSlashes) []
    let r := List.replicate initialSlashes '/' ++ intercalateSlash newComps
    if r = [] then ['.'] else r

/-- `.replace('\\', '/')` applied after normalization (app.py 242). -/
def bsToSlash (s : List Char) : List Char :=
  s.map (fun c => if c = '\\' then '/' else c)

/-- `safe_path = os.path.normpath(filename).replace('\\', '/')` (app.py 242). -/
def safePathOf (filename : List Char) : List Char :=
  bsToSlash (pyNormpath filename)

/-- `'..' in safe_path` (app.py 243): substring test for two consecutive
dots. -/
def hasDotDot : List Char → Bool
  | '.' :: '.' :: _ => true
  | _ :: rest => hasDotDot rest
  | [] => false

/-- Embeds `os.path.join(a, b)` (posixpath.join, two arguments, app.py
247): an absolute `b` discards `a` entirely. -/
def pyJoin (a b : List Char) : List Char :=
  if b.take 1 = ['/'] then b
  else if a = [] ∨ a.getLast? = some '/' then a ++ b
  else a ++ '/' :: b

/-- `file_path = os.path.join(MEDIA_FOLDER, safe_path)` (app.py 247). -/
def resolvedPath (root filename : List Char) : List Char :=
  pyJoin root (safePathOf filename)

/-- Index of the last occurrence of `c` in `s` (Python `str.rfind`,
used by `os.path.splitext`). -/
def rfindPos (c : Char) : List Char → Option Nat
  | [] => none
  | x :: rest =>
    match rfindPos c rest with
    | some i => some (i + 1)
    | none => if x = c then some 0 else none

/-- Embeds the extension part of `os.path.splitext(p)` (app.py 251,
posixpath/genericpath `_splitext`): the suffix from the last `.` that
comes after the last `/`, provided at least one non-dot character sits
between them (so a leading-dot basename such as `.bashrc` has no
extension). -/
def splitextExt (p : List Char) : List Char :=
  match rfindPos '.' p with
  | none => []
  | some d =>
    let fi : Nat :=
      match rfindPos '/' p with
      | none => 0
      | some s0 => s0 + 1
    if (match rfindPos '/' p with
        | none => true
        | some s0 => decide (s0 < d)) then
      if ((p.drop fi).take (d - fi)).any (fun c => c != '.') then p.drop d else []
    else []

/-- `ext = os.path.splitext(file_path)[1].lower()` (app.py 251). -/
def extOf (p : List Char) : List Char :=
  (splitextExt p).map Char.toLower

/-- `SUPPORTED_VIDEO_TYPES` (app.py 102). -/
def SUPPORTED_VIDEO_TYPES : List (List Char) :=
  [".mp4".data, ".webm".data, ".mkv".data, ".avi".data, ".mov".data]

/-- `SUPPORTED_AUDIO_TYPES` (app.py 103). -/
def SUPPORTED_AUDIO_TYPES : List (List Char) :=
  [".mp3".data, ".wav".data, ".ogg".data, ".flac".data, ".aac".data]

/-- `SUPPORTED_MEDIA_TYPES = SUPPORTED_VIDEO_TYPES + SUPPORTED_AUDIO_TYPES`
(app.py 104). -/
def SUPPORTED_MEDIA_TYPES : List (List Char) :=
  SUPPORTED_VIDEO_TYPES ++ SUPPORTED_AUDIO_TYPES

/-- `str(n)` for a non-negative Python int (decimal digits). -/
def natToChars (n : Nat) : List Char := Nat.toDigits 10 n

/-- `str(i)` for a Python int (f-string interpolation at app.py 271). -/
def intToChars (i : Int) : List Char :=
  if i < 0 then '-' :: natToChars i.natAbs else natToChars i.toNat

/-- The filesystem visible to the handler: absolute file path paired with
the file's byte contents.  `os.path.isfile`/`os.path.getsize`/`open` are
all served by a single lookup. -/
abbrev FS := List (List Char × List Nat)

/-- `os.path.isfile` / `open(file_path, 'rb')`: find the contents stored
under an absolute path. -/
def fsLookup (fs : FS) (p : List Char) : Option (List Nat) :=
  match fs with
  | [] => none
  | (k, v) :: rest => if k = p then some v else fsLookup rest p

/-- `f.read(n)` after `f.seek(pos)`: Python returns the rest of the file
for a negative argument, otherwise at most `n` bytes. -/
def pyRead (content : List Nat) (pos : Nat) (n : Int) : List Nat :=
  if n < 0 then content.drop pos else (content.drop pos).take n.toNat

/-- Embeds the `generate` streaming closure (app.py 283-294): seek to
`pos`, then repeatedly read `min(chunk_size, remaining)` bytes, stopping
when `remaining` reaches 0 or a read returns no data; each chunk is
yielded.  In the source `chunk_size = 8192`; it is a parameter here so the
chunk size can be quantified over. -/
def generate (content : List Nat) (pos : Nat) (remaining chunkSize : Int) :
    List (List Nat) :=
  if remaining = 0 then []
  else if (pyRead content pos (min chunkSize remaining)).length = 0 then []
  else
    pyRead content pos (min chunkSize remaining) ::
      generate content (pos + (pyRead content pos (min chunkSize remaining)).length)
        (remaining - (pyRead content pos (min chunkSize remaining)).length) chunkSize
termination_by remaining.toNat + (content.drop pos).length
decreasing_by
  have hle : (pyRead content pos (min chunkSize remaining)).length ≤
      (content.drop pos).length := by
    unfold pyRead
    split
    · exact Nat.le_refl _
    · rw [List.length_take]; exact Nat.min_le_right _ _
  simp only [List.length_drop] at *
  omega

/-- Exceptions that can be raised inside the `try` block of `serve_media`:
`abort(code)` raises an `HTTPException`, `int(...)` raises `ValueError`,
`byte_range[1]` raises `IndexError`.  All of them are caught alike by
`except Exception`. -/
inductive PyExc
  | abort (code : Nat)
  | valueError
  | indexError
deriving DecidableEq, Repr

/-- The 206 response assembled at app.py 270-296. -/
structure RangedResponse where
  status : Nat
  contentRange : List Char
  acceptRanges : List Char
  contentLength : Int
  contentType : List Char
  body : List (List Nat)
deriving DecidableEq, Repr

/-- What the client ends up receiving from `serve_media`:
a 206 ranged response, a full-content response delegated to
`send_from_directory` (app.py 300), or the generic HTTP 500 produced when
the blanket `except Exception` handler fires (app.py 302-304). -/
inductive MediaResponse
  | ranged (r : RangedResponse)
  | fullContent (servedPath : List Char)
  | genericError
deriving DecidableEq, Repr

/-- Embeds the range-parsing statements at app.py 262-264:
`byte_range = range_header.replace('bytes=', '').split('-')`,
`start = int(byte_range[0])`,
`end = int(byte_range[1]) if byte_range[1] else file_size - 1`. -/
def parseByteRange (h : List Char) (fileSize : Nat) : Except PyExc (Int × Int) :=
  let parts := splitSep '-' (stripBytesEq h)
  match parts[0]? with
  | none => .error .indexError
  | some s0 =>
    match pyInt? s0 with
    | none => .error .valueError
    | some start =>
      match parts[1]? with
      | none => .error .indexError
      | some e1 =>
        if e1 = [] then .ok (start, (fileSize : Int) - 1)
        else
          match pyInt? e1 with
          | none => .error .valueError
          | some endv => .ok (start, endv)

/-- A Range start field on which CPython `int()` certainly raises
`ValueError`: the field is empty, or contains an ASCII character that is
neither a digit, an underscore, a sign, nor `int()`-whitespace — no such
character can occur anywhere in a valid int literal (non-ASCII characters
are deliberately not counted as witnesses, because CPython accepts
non-ASCII Unicode decimal digits and whitespace). -/
def badIntField (f : List Char) : Bool :=
  f.isEmpty ||
    f.any (fun c => decide (c.toNat < 128) && !pyDigit c &&
      c != '_' && c != '+' && c != '-' && !pyIntWs c)

/-- Embeds werkzeug's `safe_join` acceptance test, which
`send_from_directory` (app.py 300) applies to `safe_path` before serving a
full-content response: the (re-normalized) path must not be absolute,
be `..`, or begin with `../`; otherwise `NotFound` is raised. -/
def safeJoinOk (p : List Char) : Bool :=
  let f := if p = [] then [] else pyNormpath p
  ¬ (f.take 1 = ['/'] ∨ f = ['.', '.'] ∨ f.take 3 = ['.', '.', '/'])

/-- The body of `serve_media`'s `try` block (app.py 240-300), as a pure
function of the media root, the filesystem, the URL path argument and the
optional `Range` header.  `.error` means an exception was raised at that
point. -/
def serve_media_inner (root : List Char) (fs : FS) (filename : List Char)
    (rangeHeader : Option (List Char)) : Except PyExc MediaResponse :=
  let safePath := safePathOf filename
  if hasDotDot safePath then .error (.abort 403)
  else
    let filePath := pyJoin root safePath
    match fsLookup fs filePath with
    | none => .error (.abort 404)
    | some content =>
      if extOf filePath ∈ SUPPORTED_MEDIA_TYPES then
        let fileSize := content.length
        match rangeHeader with
        | some h =>
          if h = [] then
            -- an empty Range header is falsy: fall through to send_from_directory
            if safeJoinOk safePath then .ok (.fullContent safePath)
            else .error (.abort 404)
          else
            match parseByteRange h fileSize with
            | .error e => .error e
            | .ok (start, endv) =>
              if (fileSize : Int) ≤ start then .error (.abort 416)
              else
                .ok (.ranged {
                  status := 206
                  contentRange := "bytes ".data ++ intToChars start ++
                    '-' :: intToChars endv ++ '/' :: natToChars fileSize
                  acceptRanges := "bytes".data
                  contentLength := endv - start + 1
                  contentType :=
                    if extOf filePath ∈ SUPPORTED_VIDEO_TYPES then "video/mp4".data
                    else "audio/mpeg".data
                  body := generate content start.toNat (endv - start + 1) 8192 })
        | none =>
          if safeJoinOk safePath then .ok (.fullContent safePath)
          else .error (.abort 404)
      else .error (.abort 403)

instance {ε α : Type} [DecidableEq ε] [DecidableEq α] : DecidableEq (Except ε α) :=
  fun a b =>
    match a, b with
    | .ok x, .ok y =>
      if h : x = y then .isTrue (h ▸ rfl) else .isFalse (fun hc => h (Except.ok.inj hc))
    | .error x, .error y =>
      if h : x = y then .isTrue (h ▸ rfl) else .isFalse (fun hc => h (Except.error.inj hc))
    | .ok _, .error _ => .isFalse (fun hc => Except.noConfusion hc)
    | .error _, .ok _ => .isFalse (fun hc => Except.noConfusion hc)

/-- `serve_media` as observed by the client: every exception raised inside
the `try` block — `ValueError`, `IndexError`, and the `HTTPException`s
raised by `abort(403)`, `abort(404)` and `abort(416)` — is caught by
`except Exception` (app.py 302-304), logged, and turned into `abort(500)`,
so the client receives the generic 500 response. -/
def serve_media (root : List Char) (fs : FS) (filename : List Char)
    (rangeHeader : Option (List Char)) : MediaResponse :=
  match serve_media_inner root fs filename rangeHeader with
  | .ok r => r
  | .error _ => .genericError

/-- A row of the `playback_state` table created by migration 001
(migrations.py 24-36): `UNIQUE(user_id, media_path)` with `position` and
`volume` stored as SQLite REALs (modelled as rationals; the endpoint
passes JSON numbers straight through). -/
structure PlaybackRow where
  userId : Nat
  mediaPath : String
  position : Rat
  volume : Rat
deriving DecidableEq, Repr

/-- The playback_state table contents, in insertion order. -/
abbrev PBDB := List PlaybackRow

/-- Embeds the upsert executed by `save_playback_state` (database.py
172-179): `INSERT ... ON CONFLICT(user_id, media_path) DO UPDATE SET
position = excluded.position, volume = excluded.volume` — if a row with
the key already exists it is updated in place, otherwise a new row is
appended. -/
def save_playback_state (db : PBDB) (u : Nat) (p : String) (pos vol : Rat) : PBDB :=
  if db.any (fun r => r.userId == u && r.mediaPath == p) then
    db.map (fun r =>
      if r.userId == u && r.mediaPath == p then
        { r with position := pos, volume := vol }
      else r)
  else
    db ++ [{ userId := u, mediaPath := p, position := pos, volume := vol }]

/-- Embeds `load_playback_state` (database.py 185-196): `SELECT media_path,
position, volume FROM playback_state WHERE user_id = ?`, returned as the
list of key/value pairs from which the Python dict comprehension is
built. -/
def load_playback_state (db : PBDB) (u : Nat) : List (String × Rat × Rat) :=
  (db.filter (fun r => r.userId == u)).map (fun r => (r.mediaPath, (r.position, r.volume)))

/-- Lookup in the dict built by the comprehension at database.py 193: when
a key occurs several times, the entry written last wins. -/
def dictLookup (l : List (String × Rat × Rat)) (p : String) : Option (Rat × Rat) :=
  match l with
  | [] => none
  | (k, v) :: rest =>
    match dictLookup rest p with
    | some w => some w
    | none => if k = p then some v else none

/-- Number of rows stored under the composite key `(u, p)`. -/
def countKey (db : PBDB) (u : Nat) (p : String) : Nat :=
  (db.filter (fun r => r.userId == u && r.mediaPath == p)).length

/-- Whether the backing SQLite call inside `save_playback_state` succeeds
or raises (disk error, missing table, ...). -/
inductive StoreOutcome
  | ok
  | failed
deriving DecidableEq, Repr

/-- Embeds the error handling of `save_playback_state` (database.py
167-183): the upsert runs inside `try`; on a backing-store failure the
`except Exception` clause only logs — the function returns normally in
both cases and exposes no success/failure signal to its caller. -/
def save_playback_state_run (outcome : StoreOutcome) (db : PBDB) (u : Nat)
    (p : String) (pos vol : Rat) : PBDB :=
  match outcome with
  | .ok => save_playback_state db u p pos vol
  | .failed => db

/-- The JSON body of a POST to /api/playback-state: the handler only
checks that `path` and `position` keys are present. -/
structure PostData where
  path : Option String
  position : Option Rat
  volume : Option Rat
deriving DecidableEq, Repr

/-- Embeds the POST branch of `api_playback_state` (app.py 216-234):
missing body or missing `path`/`position` keys give a 400; otherwise
`save_playback_state(user_id, data['path'], data['position'],
data.get('volume', 1.0))` runs and the endpoint answers
`{"status": "success"}` (HTTP 200).  Because `save_playback_state`
swallows its own exceptions, the surrounding `except` at app.py 232-234
never fires for a store failure.  Returns (status code, body) and the
resulting table. -/
def api_playback_state_post (outcome : StoreOutcome) (db : PBDB) (userId : Nat)
    (data : Option PostData) : (Nat × String) × PBDB :=
  match data with
  | none => ((400, "Invalid data"), db)
  | some d =>
    match d.path, d.position with
    | some p, some pos =>
      ((200, "success"), save_playback_state_run outcome db userId p pos (d.volume.getD 1))
    | _, _ => ((400, "Invalid data"), db)

/-- Concrete media root used by the closed evaluation theorems. -/
def mediaRoot : List Char := "/srv/media".data

/-- Concrete filesystem: a 1000-byte `movie.mp4` under the media root. -/
def fsMovie : FS := [("/srv/media/movie.mp4".data, List.replicate 1000 7)]

/-- Concrete filesystem for the absolute-path escape: a 3-byte file that
lives outside the media root. -/
def fsOutside : FS := [("/outside/evil.mp4".data, [9, 9, 9])]

/-- Concrete filesystem with a 10-byte `movie.mp4`, for cheap witness
evaluations. -/
def fsSmall : FS := [("/srv/media/movie.mp4".data, List.replicate 10 3)]

/-! ### Helper lemmas about the streaming generator -/

theorem generate_flatten_fuel (cs : Int) (hcs : 0 < cs) :
    ∀ (fuel : Nat) (content : List Nat) (pos : Nat) (remaining : Int),
      0 ≤ remaining → remaining.toNat + (content.drop pos).length ≤ fuel →
      (generate content pos remaining cs).flatten = (content.drop pos).take remaining.toNat := by
  intro fuel
  induction fuel with
  | zero =>
    intro content pos remaining h0 hf
    have h1 : remaining = 0 := by omega
    subst h1
    rw [generate]
    simp
  | succ n ih =>
    intro content pos remaining h0 hf
    rw [generate]
    by_cases hr : remaining = 0
    · subst hr; simp
    · rw [if_neg hr]
      have hrpos : 0 < remaining := by omega
      have hmpos : 0 < min cs remaining := lt_min hcs hrpos
      have hread : pyRead content pos (min cs remaining)
          = (content.drop pos).take (min cs remaining).toNat := by
        unfold pyRead; rw [if_neg (by omega)]
      by_cases hz : (pyRead content pos (min cs remaining)).length = 0
      · rw [if_pos hz]
        rw [hread, List.length_take] at hz
        have hdl : (content.drop pos).length = 0 := by omega
        rw [List.eq_nil_of_length_eq_zero hdl]
        simp
      · rw [if_neg hz]
        rw [List.flatten_cons]
        have hcl : (pyRead content pos (min cs remaining)).length
            = min (min cs remaining).toNat (content.drop pos).length := by
          rw [hread, List.length_take]
        have hcl_le_rem : (pyRead content pos (min cs remaining)).length ≤ remaining.toNat := by
          omega
        have hih := ih content (pos + (pyRead content pos (min cs remaining)).length)
          (remaining - (pyRead content pos (min cs remaining)).length)
          (by omega)
          (by
            simp only [List.length_drop] at hf ⊢
            omega)
        rw [hih]
        rw [← List.drop_drop]
        have htn : (remaining - (pyRead content pos (min cs remaining)).length).toNat
            = remaining.toNat - (pyRead content pos (min cs remaining)).length := by
          omega
        rw [htn]
        rw [hread, List.length_take]
        by_cases hmd : (min cs remaining).toNat ≤ (content.drop pos).length
        · rw [Nat.min_eq_left hmd]
          rw [← List.take_add]
          congr 1
          omega
        · rw [Nat.min_eq_right (by omega)]
          rw [List.take_of_length_le (by omega)]
          rw [List.drop_length]
          rw [List.take_nil, List.append_nil]
          rw [List.take_of_length_le (by omega)]

/-- The total byte sequence a `generate` stream produces: with a positive
chunk size and a non-negative requested count it is exactly the requested
slice, truncated at end of file. -/
theorem generate_flatten (content : List Nat) (pos : Nat) (remaining cs : Int)
    (hcs : 0 < cs) (h0 : 0 ≤ remaining) :
    (generate content pos remaining cs).flatten = (content.drop pos).take remaining.toNat :=
  generate_flatten_fuel cs hcs (remaining.toNat + (content.drop pos).length)
    content pos remaining h0 (Nat.le_refl _)

/-! ### Helper lemmas about the range-header string manipulation -/

theorem stripBytesEq_bytes (r : List Char) :
    stripBytesEq ('b' :: 'y' :: 't' :: 'e' :: 's' :: '=' :: r) = stripBytesEq r := rfl

theorem stripBytesEq_of_not_mem (l : List Char) (h : 'b' ∉ l) : stripBytesEq l = l := by
  induction l with
  | nil => rfl
  | cons c t ih =>
    have hc : c ≠ 'b' := fun hcb => h (hcb ▸ List.mem_cons_self c t)
    have ht : 'b' ∉ t := fun hm => h (List.mem_cons_of_mem _ hm)
    rw [stripBytesEq.eq_def]
    split
    · rename_i heq
      injection heq with h1 _
      exact absurd h1 hc
    · rename_i heq
      injection heq with h1 h2
      subst h1; subst h2
      rw [ih ht]
    · rename_i heq
      exact absurd heq (by simp)

theorem splitSep_ne_nil (sep : Char) (l : List Char) : splitSep sep l ≠ [] := by
  cases l with
  | nil => simp [splitSep]
  | cons c t =>
    rw [splitSep]
    by_cases h : c = sep
    · simp [h]
    · rw [if_neg h]
      split <;> simp

theorem splitSep_nil (sep : Char) : splitSep sep [] = [[]] := rfl

theorem splitSep_append (sep : Char) (a b : List Char) (h : sep ∉ a) :
    splitSep sep (a ++ sep :: b) = a :: splitSep sep b := by
  induction a with
  | nil =>
    simp only [List.nil_append]
    rw [splitSep, if_pos rfl]
  | cons c t ih =>
    have hc : c ≠ sep := fun hcs => h (hcs ▸ List.mem_cons_self c t)
    have ht : sep ∉ t := fun hm => h (List.mem_cons_of_mem _ hm)
    simp only [List.cons_append]
    rw [splitSep, if_neg hc, ih ht]

theorem pyDigit_not_ws (c : Char) (h : pyDigit c = true) : pyIntWs c = false := by
  simp only [pyDigit, decide_eq_true_eq] at h
  rw [Bool.eq_false_iff]
  intro hw
  simp only [pyIntWs, Bool.or_eq_true, decide_eq_true_eq] at hw
  omega

theorem pyDigit_ne_of (c : Char) (h : pyDigit c = true) :
    c ≠ '_' ∧ c ≠ '+' ∧ c ≠ '-' ∧ c ≠ 'b' := by
  refine ⟨?_, ?_, ?_, ?_⟩ <;> (intro he; subst he; exact absurd h (by decide))

theorem pyNatTail_cons (acc : Nat) (b : Bool) (c : Char) (rest : List Char) :
    pyNatTail acc b (c :: rest) =
      if pyDigit c then pyNatTail (acc * 10 + (c.toNat - 48)) false rest
      else if b = false ∧ c = '_' then pyNatTail acc true rest
      else none := by
  rw [pyNatTail]

theorem pyNatTail_chars (x : List Char) :
    ∀ (acc : Nat) (b : Bool) (n : Nat), pyNatTail acc b x = some n →
      ∀ d ∈ x, pyDigit d = true ∨ d = '_' := by
  induction x with
  | nil =>
    intro acc b n _ d hd
    simp at hd
  | cons c rest ih =>
    intro acc b n hx d hd
    rw [pyNatTail_cons] at hx
    by_cases hc : pyDigit c = true
    · rw [if_pos hc] at hx
      rcases List.mem_cons.mp hd with rfl | hdm
      · exact Or.inl hc
      · exact ih _ _ n hx d hdm
    · rw [if_neg hc] at hx
      by_cases hu : b = false ∧ c = '_'
      · rw [if_pos hu] at hx
        rcases List.mem_cons.mp hd with rfl | hdm
        · exact Or.inr hu.2
        · exact ih _ _ n hx d hdm
      · rw [if_neg hu] at hx
        exact absurd hx (by simp)

theorem pyNat?_cons (c : Char) (rest : List Char) :
    pyNat? (c :: rest) =
      if pyDigit c then pyNatTail (c.toNat - 48) false rest else none := by
  rw [pyNat?]

theorem pyNat?_shape (x : List Char) (n : Nat) (h : pyNat? x = some n) :
    x ≠ [] ∧ (∀ d ∈ x, pyDigit d = true ∨ d = '_') := by
  cases x with
  | nil => exact absurd h (by simp [pyNat?])
  | cons c rest =>
    refine ⟨by simp, ?_⟩
    rw [pyNat?_cons] at h
    by_cases hc : pyDigit c = true
    · rw [if_pos hc] at h
      intro d hd
      rcases List.mem_cons.mp hd with rfl | hdm
      · exact Or.inl hc
      · exact pyNatTail_chars rest _ _ n h d hdm
    · rw [if_neg hc] at h
      exact absurd h (by simp)

theorem pyNat?_head_digit (c : Char) (t : List Char) (n : Nat)
    (h : pyNat? (c :: t) = some n) : pyDigit c = true := by
  rw [pyNat?_cons] at h
  by_cases hc : pyDigit c = true
  · exact hc
  · rw [if_neg hc] at h
    exact absurd h (by simp)

theorem mem_dropWhile_or (p : Char → Bool) (s : List Char) (c : Char) (hc : c ∈ s) :
    c ∈ s.dropWhile p ∨ p c = true := by
  induction s with
  | nil => simp at hc
  | cons a t ih =>
    rw [List.dropWhile_cons]
    by_cases hp : p a = true
    · rw [if_pos hp]
      rcases List.mem_cons.mp hc with rfl | hmem
      · exact Or.inr hp
      · exact ih hmem
    · rw [if_neg hp]
      exact Or.inl hc

theorem mem_stripWs (s : List Char) (c : Char) (hc : c ∈ s) :
    c ∈ pyStripWs s ∨ pyIntWs c = true := by
  unfold pyStripWs
  rcases mem_dropWhile_or pyIntWs s c hc with h1 | hws
  · rcases mem_dropWhile_or pyIntWs (s.dropWhile pyIntWs).reverse c
        (List.mem_reverse.mpr h1) with h2 | hws2
    · exact Or.inl (List.mem_reverse.mpr h2)
    · exact Or.inr hws2
  · exact Or.inr hws

theorem dropWhile_eq_self_of (p : Char → Bool) (s : List Char)
    (h : ∀ c ∈ s, p c = false) : s.dropWhile p = s := by
  cases s with
  | nil => rfl
  | cons a t =>
    rw [List.dropWhile_cons,
      if_neg (by simp [h a (List.mem_cons_self a t)])]

theorem pyStripWs_eq_self (s : List Char) (h : ∀ c ∈ s, pyIntWs c = false) :
    pyStripWs s = s := by
  unfold pyStripWs
  rw [dropWhile_eq_self_of _ _ h,
    dropWhile_eq_self_of _ _ (fun c hc => h c (List.mem_reverse.mp hc)),
    List.reverse_reverse]

theorem pyInt?_of_pyNat? (s : List Char) (n : Nat) (h : pyNat? s = some n) :
    pyInt? s = some (n : Int) := by
  obtain ⟨hne, hall⟩ := pyNat?_shape s n h
  have hws : ∀ c ∈ s, pyIntWs c = false := by
    intro c hc
    rcases hall c hc with hd | he
    · exact pyDigit_not_ws c hd
    · subst he; decide
  have hstrip : pyStripWs s = s := pyStripWs_eq_self s hws
  cases s with
  | nil => exact absurd rfl hne
  | cons c t =>
    have hcd : pyDigit c = true := pyNat?_head_digit c t n h
    obtain ⟨_, hp, hm, _⟩ := pyDigit_ne_of c hcd
    unfold pyInt?
    rw [hstrip]
    split
    · rename_i heq
      injection heq with h1 _
      exact absurd h1 hm
    · rename_i heq
      injection heq with h1 _
      exact absurd h1 hp
    · rw [h]; rfl

theorem pyInt?_some_chars (f : List Char) (v : Int) (h : pyInt? f = some v) :
    ∀ c ∈ f, pyIntWs c = true ∨ c = '+' ∨ c = '-' ∨ pyDigit c = true ∨ c = '_' := by
  intro c hc
  rcases mem_stripWs f c hc with hcs | hws
  · unfold pyInt? at h
    cases hs : pyStripWs f with
    | nil =>
      rw [hs] at hcs
      simp at hcs
    | cons a t =>
      rw [hs] at h hcs
      split at h
      · rename_i rest heq
        injection heq with h1 h2
        subst h1
        rw [← h2] at h
        rcases List.mem_cons.mp hcs with rfl | hct
        · exact Or.inr (Or.inr (Or.inl rfl))
        · cases hpn : pyNat? t with
          | none => rw [hpn] at h; simp at h
          | some n' =>
            rcases (pyNat?_shape _ _ hpn).2 c hct with hd | hu
            · exact Or.inr (Or.inr (Or.inr (Or.inl hd)))
            · exact Or.inr (Or.inr (Or.inr (Or.inr hu)))
      · rename_i rest heq
        injection heq with h1 h2
        subst h1
        rw [← h2] at h
        rcases List.mem_cons.mp hcs with rfl | hct
        · exact Or.inr (Or.inl rfl)
        · cases hpn : pyNat? t with
          | none => rw [hpn] at h; simp at h
          | some n' =>
            rcases (pyNat?_shape _ _ hpn).2 c hct with hd | hu
            · exact Or.inr (Or.inr (Or.inr (Or.inl hd)))
            · exact Or.inr (Or.inr (Or.inr (Or.inr hu)))
      · cases hpn : pyNat? (a :: t) with
        | none => rw [hpn] at h; simp at h
        | some n' =>
          rcases (pyNat?_shape _ _ hpn).2 c hcs with hd | hu
          · exact Or.inr (Or.inr (Or.inr (Or.inl hd)))
          · exact Or.inr (Or.inr (Or.inr (Or.inr hu)))
  · exact Or.inl hws

theorem pyInt?_eq_none_of_bad (f : List Char) (hb : badIntField f = true) :
    pyInt? f = none := by
  cases hv : pyInt? f with
  | none => rfl
  | some v =>
    exfalso
    unfold badIntField at hb
    rcases Bool.or_eq_true_iff.mp hb with he | hany
    · rw [List.isEmpty_iff.mp he,
        show pyInt? ([] : List Char) = none from rfl] at hv
      exact Option.noConfusion hv
    · rw [List.any_eq_true] at hany
      obtain ⟨c, hcm, hcb⟩ := hany
      simp only [Bool.and_eq_true, Bool.not_eq_true', bne_iff_ne, decide_eq_true_eq] at hcb
      obtain ⟨⟨⟨⟨⟨hascii, hnd⟩, hnu⟩, hnp⟩, hnm⟩, hnw⟩ := hcb
      rcases pyInt?_some_chars f v hv c hcm with hws | he | he | hd | he
      · rw [hnw] at hws
        exact Bool.false_ne_true hws
      · exact hnp he
      · exact hnm he
      · rw [hnd] at hd
        exact Bool.false_ne_true hd
      · exact hnu he

theorem parseByteRange_open_ended (s : List Char) (n : Nat) (hs : pyNat? s = some n)
    (fileSize : Nat) :
    parseByteRange ("bytes=".data ++ (s ++ ['-'])) fileSize
      = .ok ((n : Int), (fileSize : Int) - 1) := by
  obtain ⟨hne, hall⟩ := pyNat?_shape s n hs
  have hnotin : ∀ c : Char, c ∈ s → c ≠ 'b' ∧ c ≠ '-' := by
    intro c hc
    rcases hall c hc with hd | he
    · obtain ⟨_, _, hm, hbch⟩ := pyDigit_ne_of c hd
      exact ⟨hbch, hm⟩
    · subst he
      exact ⟨by decide, by decide⟩
  have hnb : 'b' ∉ s ++ ['-'] := by
    intro hm
    rcases List.mem_append.mp hm with hm1 | hm2
    · exact (hnotin 'b' hm1).1 rfl
    · simp at hm2
  have hstrip : stripBytesEq ("bytes=".data ++ (s ++ ['-'])) = s ++ ['-'] := by
    rw [show ("bytes=".data ++ (s ++ ['-']))
        = 'b' :: 'y' :: 't' :: 'e' :: 's' :: '=' :: (s ++ ['-']) from rfl]
    rw [stripBytesEq_bytes, stripBytesEq_of_not_mem _ hnb]
  have hmm : '-' ∉ s := fun hm => (hnotin '-' hm).2 rfl
  have hsplit : splitSep '-' (s ++ '-' :: []) = s :: splitSep '-' [] :=
    splitSep_append '-' s [] hmm
  unfold parseByteRange
  rw [hstrip]
  rw [show (s ++ ['-']) = s ++ '-' :: [] from rfl, hsplit, splitSep_nil]
  simp only [List.getElem?_cons_zero, List.getElem?_cons_succ]
  rw [pyInt?_of_pyNat? s n hs]
  simp

theorem getElem?_zero_of_ne_nil (l : List (List Char)) (h : l ≠ []) :
    l[0]? = some l.headI := by
  cases l with
  | nil => exact absurd rfl h
  | cons a t => simp [List.headI]

/-! ### Helper lemmas about the playback-state store -/

theorem countKey_cons (r : PlaybackRow) (t : PBDB) (u : Nat) (p : String) :
    countKey (r :: t) u p =
      (if r.userId == u && r.mediaPath == p then 1 else 0) + countKey t u p := by
  unfold countKey
  rw [List.filter_cons]
  split <;> simp [Nat.add_comm]

theorem countKey_map_update (db : PBDB) (u : Nat) (p : String) (pos vol : Rat) :
    countKey (db.map (fun r =>
      if r.userId == u && r.mediaPath == p then { r with position := pos, volume := vol }
      else r)) u p = countKey db u p := by
  induction db with
  | nil => rfl
  | cons r t ih =>
    rw [List.map_cons, countKey_cons, countKey_cons, ih]
    congr 1
    by_cases hk : (r.userId == u && r.mediaPath == p) = true
    · simp [hk]
    · simp [hk]

theorem countKey_eq_zero_of_any_false (db : PBDB) (u : Nat) (p : String)
    (h : db.any (fun r => r.userId == u && r.mediaPath == p) = false) :
    countKey db u p = 0 := by
  unfold countKey
  rw [List.length_eq_zero, List.filter_eq_nil_iff]
  rw [List.any_eq_false] at h
  exact h

theorem countKey_append_single (db : PBDB) (r : PlaybackRow) (u : Nat) (p : String) :
    countKey (db ++ [r]) u p
      = countKey db u p + (if r.userId == u && r.mediaPath == p then 1 else 0) := by
  unfold countKey
  rw [List.filter_append, List.length_append]
  congr 1
  rw [List.filter_cons]
  split <;> simp

theorem countKey_pos_of_any_true (db : PBDB) (u : Nat) (p : String)
    (h : db.any (fun r => r.userId == u && r.mediaPath == p) = true) :
    1 ≤ countKey db u p := by
  rw [List.any_eq_true] at h
  obtain ⟨r, hr, hk⟩ := h
  have hmem : r ∈ db.filter (fun r => r.userId == u && r.mediaPath == p) :=
    List.mem_filter.mpr ⟨hr, hk⟩
  unfold countKey
  exact List.length_pos.mpr (List.ne_nil_of_mem hmem)

theorem countKey_save (db : PBDB) (u : Nat) (p : String) (pos vol : Rat)
    (hinv : countKey db u p ≤ 1) :
    countKey (save_playback_state db u p pos vol) u p = 1 := by
  unfold save_playback_state
  by_cases ha : db.any (fun r => r.userId == u && r.mediaPath == p) = true
  · rw [if_pos ha, countKey_map_update]
    have := countKey_pos_of_any_true db u p ha
    omega
  · rw [if_neg ha, countKey_append_single,
      countKey_eq_zero_of_any_false db u p (Bool.eq_false_iff.mpr ha)]
    simp

theorem load_append (db1 db2 : PBDB) (u : Nat) :
    load_playback_state (db1 ++ db2) u
      = load_playback_state db1 u ++ load_playback_state db2 u := by
  unfold load_playback_state
  rw [List.filter_append, List.map_append]

theorem dictLookup_append_single (l : List (String × Rat × Rat)) (p : String) (v : Rat × Rat) :
    dictLookup (l ++ [(p, v)]) p = some v := by
  induction l with
  | nil => simp [dictLookup]
  | cons e t ih =>
    obtain ⟨k, w⟩ := e
    rw [List.cons_append, dictLookup, ih]

theorem dictLookup_none (db : PBDB) (u : Nat) (p : String)
    (h : ∀ r ∈ db, ¬(r.userId == u && r.mediaPath == p) = true) :
    dictLookup (load_playback_state db u) p = none := by
  induction db with
  | nil => rfl
  | cons r t ih =>
    have ht := ih (fun r' hr' => h r' (List.mem_cons_of_mem _ hr'))
    have hr := h r (List.mem_cons_self r t)
    unfold load_playback_state at ht ⊢
    rw [List.filter_cons]
    by_cases hu : (r.userId == u) = true
    · rw [if_pos hu, List.map_cons, dictLookup, ht]
      have hp : ¬ r.mediaPath = p := by
        intro hmp
        exact hr (by rw [hu, hmp]; simp)
      rw [if_neg hp]
    · rw [if_neg hu]
      exact ht

theorem dictLookup_load_cons_of_some (x : PlaybackRow) (t : PBDB) (u : Nat) (p : String)
    (v : Rat × Rat) (h : dictLookup (load_playback_state t u) p = some v) :
    dictLookup (load_playback_state (x :: t) u) p = some v := by
  unfold load_playback_state at h ⊢
  rw [List.filter_cons]
  split
  · rw [List.map_cons, dictLookup, h]
  · exact h

theorem dictLookup_map_update (db : PBDB) (u : Nat) (p : String) (pos vol : Rat)
    (h : db.any (fun r => r.userId == u && r.mediaPath == p) = true) :
    dictLookup (load_playback_state (db.map (fun r =>
      if r.userId == u && r.mediaPath == p then { r with position := pos, volume := vol }
      else r)) u) p = some (pos, vol) := by
  induction db with
  | nil => simp at h
  | cons r t ih =>
    rw [List.map_cons]
    by_cases hta : t.any (fun r => r.userId == u && r.mediaPath == p) = true
    · exact dictLookup_load_cons_of_some _ _ _ _ _ (ih hta)
    · have hk : (r.userId == u && r.mediaPath == p) = true := by
        rw [List.any_cons] at h
        rcases Bool.or_eq_true_iff.mp h with h1 | h2
        · exact h1
        · exact absurd h2 hta
      have htnone : dictLookup (load_playback_state (t.map (fun r =>
          if r.userId == u && r.mediaPath == p then { r with position := pos, volume := vol }
          else r)) u) p = none := by
        apply dictLookup_none
        intro r' hr'
        obtain ⟨r0, hr0, rfl⟩ := List.mem_map.mp hr'
        have h0 : ¬(r0.userId == u && r0.mediaPath == p) = true := by
          intro hh
          exact hta (List.any_eq_true.mpr ⟨r0, hr0, hh⟩)
        rw [if_neg h0]
        exact h0
      rw [if_pos hk]
      unfold load_playback_state at htnone ⊢
      rw [List.filter_cons]
      have hu : (({ r with position := pos, volume := vol } : PlaybackRow).userId == u) = true := by
        have := Bool.and_eq_true_iff.mp hk
        exact this.1
      rw [if_pos hu, List.map_cons, dictLookup, htnone]
      have hp : ({ r with position := pos, volume := vol } : PlaybackRow).mediaPath = p := by
        have := Bool.and_eq_true_iff.mp hk
        exact beq_iff_eq.mp this.2
      rw [if_pos hp]

theorem dictLookup_load_save (db : PBDB) (u : Nat) (p : String) (pos vol : Rat) :
    dictLookup (load_playback_state (save_playback_state db u p pos vol) u) p
      = some (pos, vol) := by
  unfold save_playback_state
  by_cases ha : db.any (fun r => r.userId == u && r.mediaPath == p) = true
  · rw [if_pos ha]
    exact dictLookup_map_update db u p pos vol ha
  · rw [if_neg ha, load_append]
    have hone : load_playback_state [⟨u, p, pos, vol⟩] u = [(p, (pos, vol))] := by
      unfold load_playback_state
      simp
    rw [hone, dictLookup_append_single]

/-! ### Claim theorems -/

/-- C1: the claim says a `..` path yields HTTP 403 and that every resolved
path stays under the media root.  The code disagrees on both counts: the
`abort(403)` raised for `../../etc/passwd` is an `HTTPException` caught by
the blanket `except Exception`, which re-raises `abort(500)` — the client
receives the generic 500, not 403; and for an absolute path such as
`/outside/evil.mp4`, `os.path.normpath` leaves no `..` segment while
`os.path.join(MEDIA_FOLDER, ...)` discards the media root entirely, so a
request carrying a `Range` header streams a file from outside the root
(there is no canonicalization or prefix check). -/
theorem traversal_handling_diverges :
    serve_media_inner mediaRoot fsMovie ("../../etc/passwd".data) none = .error (.abort 403)
    ∧ serve_media mediaRoot fsMovie ("../../etc/passwd".data) none = .genericError
    ∧ hasDotDot (safePathOf ("/outside/evil.mp4".data)) = false
    ∧ resolvedPath mediaRoot ("/outside/evil.mp4".data) = "/outside/evil.mp4".data
    ∧ mediaRoot.isPrefixOf (resolvedPath mediaRoot ("/outside/evil.mp4".data)) = false
    ∧ serve_media mediaRoot fsOutside ("/outside/evil.mp4".data) (some ("bytes=0-".data))
        = .ranged
            { status := 206,
              contentRange := "bytes 0-2/3".data,
              acceptRanges := "bytes".data,
              contentLength := 3,
              contentType := "video/mp4".data,
              body := generate [9, 9, 9] 0 3 8192 } :=
  ⟨by decide, by decide, by decide, by decide, by decide, rfl⟩

/-- C2: the claim says `end` is clamped to `fileSize - 1`.  The code never
clamps: `bytes=100-50000` against a 1000-byte file parses to the pair
`(100, 50000)`, the response announces `Content-Range: bytes
100-50000/1000` with `Content-Length` 49901, and the generator actually
streams only the 900 bytes that exist past offset 100. -/
theorem range_end_not_clamped :
    parseByteRange ("bytes=100-50000".data) 1000 = .ok (100, 50000)
    ∧ serve_media mediaRoot fsMovie ("movie.mp4".data) (some ("bytes=100-50000".data))
        = .ranged
            { status := 206,
              contentRange := "bytes 100-50000/1000".data,
              acceptRanges := "bytes".data,
              contentLength := 49901,
              contentType := "video/mp4".data,
              body := generate (List.replicate 1000 7) 100 49901 8192 }
    ∧ ((generate (List.replicate 1000 7) 100 49901 8192).flatten).length = 900 := by
  refine ⟨by decide, rfl, ?_⟩
  rw [generate_flatten (List.replicate 1000 7) 100 49901 8192 (by norm_num) (by norm_num)]
  simp [List.length_take, List.length_drop, List.length_replicate]

/-- C3 counterexample: for the multi-range header `bytes=0-10,20-30` the
handler neither degrades to full content nor issues a deliberate
rejection: `int('10,20')` raises `ValueError` inside the `try` block and
the client receives the generic HTTP 500. -/
theorem multirange_counterexample :
    serve_media_inner mediaRoot fsMovie ("movie.mp4".data) (some ("bytes=0-10,20-30".data))
        = .error .valueError
    ∧ serve_media mediaRoot fsMovie ("movie.mp4".data) (some ("bytes=0-10,20-30".data))
        = .genericError :=
  ⟨by decide, by decide⟩

/-- C3 amended: a multi-range header makes the range parse raise
`ValueError` (the comma stops `int()`), and — whatever the media root,
filesystem and requested path — the request ends in the generic HTTP 500
path; it is never served as full content and never deliberately
rejected. -/
theorem multirange_generic_500 (root : List Char) (fs : FS) (filename : List Char) (n : Nat) :
    parseByteRange ("bytes=0-10,20-30".data) n = .error .valueError
    ∧ serve_media root fs filename (some ("bytes=0-10,20-30".data)) = .genericError := by
  have hparse : ∀ m : Nat, parseByteRange ("bytes=0-10,20-30".data) m = .error .valueError :=
    fun _ => rfl
  refine ⟨hparse n, ?_⟩
  by_cases hdd : hasDotDot (safePathOf filename) = true
  · simp [serve_media, serve_media_inner, hdd]
  · cases hlk : fsLookup fs (pyJoin root (safePathOf filename)) with
    | none => simp [serve_media, serve_media_inner, hdd, hlk]
    | some content =>
      by_cases hext : extOf (pyJoin root (safePathOf filename)) ∈ SUPPORTED_MEDIA_TYPES
      · simp [serve_media, serve_media_inner, hdd, hlk, hext, hparse]
      · simp [serve_media, serve_media_inner, hdd, hlk, hext]

/-- C5: the claim says a range starting at or beyond EOF yields HTTP 416.
The code does raise `abort(416)` for `bytes=1000-2000` against the
1000-byte file, but the blanket `except Exception` catches the
`HTTPException` and re-raises `abort(500)`: the client receives the
generic 500, not 416 (and no body bytes). -/
theorem unsat_range_handling_diverges :
    serve_media_inner mediaRoot fsMovie ("movie.mp4".data) (some ("bytes=1000-2000".data))
        = .error (.abort 416)
    ∧ serve_media mediaRoot fsMovie ("movie.mp4".data) (some ("bytes=1000-2000".data))
        = .genericError :=
  ⟨by decide, by decide⟩

/-- C6: for any valid byte range `start ≤ end < fileSize` and any positive
chunk size, the concatenation of the chunks the `generate` stream produces
is byte-identical to the slice `[start, end]` of the file and has length
exactly `end - start + 1` (the source uses chunk size 8192; the property
holds for every positive chunk size). -/
theorem serve_stream_slice (content : List Nat) (start endv : Nat) (cs : Int)
    (hcs : 0 < cs) (hse : start ≤ endv) (hlt : endv < content.length) :
    (generate content start ((endv : Int) - (start : Int) + 1) cs).flatten
      = (content.drop start).take (endv - start + 1)
    ∧ ((generate content start ((endv : Int) - (start : Int) + 1) cs).flatten).length
      = endv - start + 1 := by
  have h0 : (0:Int) ≤ (endv : Int) - (start : Int) + 1 := by omega
  have hmain := generate_flatten content start ((endv : Int) - (start : Int) + 1) cs hcs h0
  have htn : ((endv : Int) - (start : Int) + 1).toNat = endv - start + 1 := by omega
  rw [htn] at hmain
  refine ⟨hmain, ?_⟩
  rw [hmain, List.length_take, List.length_drop]
  omega

/-- Witness for C6 at a concrete file and range. -/
theorem serve_stream_slice_w :
    (0:Int) < 2 ∧ (1:Nat) ≤ 3 ∧ (3:Nat) < ([0, 1, 2, 3, 4, 5] : List Nat).length
    ∧ ((generate [0, 1, 2, 3, 4, 5] 1 ((3 : Int) - (1 : Int) + 1) 2).flatten
        = (([0, 1, 2, 3, 4, 5] : List Nat).drop 1).take (3 - 1 + 1)
      ∧ ((generate [0, 1, 2, 3, 4, 5] 1 ((3 : Int) - (1 : Int) + 1) 2).flatten).length
        = 3 - 1 + 1) :=
  ⟨by decide, by decide, by decide,
    serve_stream_slice [0, 1, 2, 3, 4, 5] 1 3 2 (by decide) (by decide) (by decide)⟩

/-- C4: for every open-ended range header `bytes=<start>-` whose start
digits parse to `n < fileSize` on a file that passes the path and
extension checks, `serve_media` answers 206 with
`Content-Range: bytes {start}-{fileSize-1}/{fileSize}`,
`Accept-Ranges: bytes` and `Content-Length = fileSize - start`. -/
theorem open_ended_range_response (root : List Char) (fs : FS) (filename : List Char)
    (content : List Nat) (s : List Char) (n : Nat)
    (hdd : hasDotDot (safePathOf filename) = false)
    (hfs : fsLookup fs (resolvedPath root filename) = some content)
    (hext : extOf (resolvedPath root filename) ∈ SUPPORTED_MEDIA_TYPES)
    (hs : pyNat? s = some n)
    (hlt : n < content.length) :
    serve_media root fs filename (some ("bytes=".data ++ (s ++ ['-']))) =
      .ranged
        { status := 206,
          contentRange := "bytes ".data ++ intToChars (n : Int) ++
            '-' :: intToChars ((content.length : Int) - 1) ++ '/' :: natToChars content.length,
          acceptRanges := "bytes".data,
          contentLength := (content.length : Int) - (n : Int),
          contentType :=
            if extOf (resolvedPath root filename) ∈ SUPPORTED_VIDEO_TYPES then "video/mp4".data
            else "audio/mpeg".data,
          body := generate content n ((content.length : Int) - (n : Int)) 8192 } := by
  have hparse := parseByteRange_open_ended s n hs content.length
  have hne2 : ("bytes=".data ++ (s ++ ['-'])) ≠ [] := by simp
  have hnotge : ¬ ((content.length : Int) ≤ (n : Int)) := by omega
  simp only [resolvedPath] at hfs hext
  simp only [serve_media, serve_media_inner, hdd, Bool.false_eq_true, if_false, hfs, hext,
    if_true, hne2, hparse, hnotge]
  simp only [resolvedPath]
  have harith : (content.length : Int) - 1 - (n : Int) + 1
      = (content.length : Int) - (n : Int) := by omega
  rw [harith, Int.toNat_natCast]

/-- Witness for C4 on a 10-byte file and the header `bytes=5-`. -/
theorem open_ended_range_response_w :
    hasDotDot (safePathOf ("movie.mp4".data)) = false
    ∧ fsLookup fsSmall (resolvedPath mediaRoot ("movie.mp4".data))
        = some (List.replicate 10 3)
    ∧ extOf (resolvedPath mediaRoot ("movie.mp4".data)) ∈ SUPPORTED_MEDIA_TYPES
    ∧ pyNat? ("5".data) = some 5
    ∧ 5 < (List.replicate 10 3).length
    ∧ serve_media mediaRoot fsSmall ("movie.mp4".data)
        (some ("bytes=".data ++ ("5".data ++ ['-']))) =
      .ranged
        { status := 206,
          contentRange := "bytes ".data ++ intToChars ((5 : Nat) : Int) ++
            '-' :: intToChars (((List.replicate 10 3 : List Nat).length : Int) - 1) ++
            '/' :: natToChars (List.replicate 10 3 : List Nat).length,
          acceptRanges := "bytes".data,
          contentLength := (((List.replicate 10 3 : List Nat).length : Int) - ((5 : Nat) : Int)),
          contentType :=
            if extOf (resolvedPath mediaRoot ("movie.mp4".data)) ∈ SUPPORTED_VIDEO_TYPES
            then "video/mp4".data else "audio/mpeg".data,
          body := generate (List.replicate 10 3) 5
            (((List.replicate 10 3 : List Nat).length : Int) - ((5 : Nat) : Int)) 8192 } :=
  ⟨by decide, by decide, by decide, by decide, by decide,
    open_ended_range_response mediaRoot fsSmall ("movie.mp4".data) (List.replicate 10 3)
      ("5".data) 5 (by decide) (by decide) (by decide) (by decide) (by decide)⟩

/-- C7: saving a playback state and loading for the same user returns the
just-saved position and volume under that path, and a second save for the
same (user, path) key overwrites in place — under the table's
`UNIQUE(user_id, media_path)` invariant the store holds exactly one row
for that key after each save. -/
theorem playback_save_load_roundtrip (db : PBDB) (u : Nat) (p : String)
    (pos vol pos2 vol2 : Rat) (hinv : countKey db u p ≤ 1) :
    dictLookup (load_playback_state (save_playback_state db u p pos vol) u) p = some (pos, vol)
    ∧ countKey (save_playback_state db u p pos vol) u p = 1
    ∧ countKey (save_playback_state (save_playback_state db u p pos vol) u p pos2 vol2) u p = 1
    ∧ dictLookup (load_playback_state
        (save_playback_state (save_playback_state db u p pos vol) u p pos2 vol2) u) p
        = some (pos2, vol2) := by
  have h2 := countKey_save db u p pos vol hinv
  exact ⟨dictLookup_load_save db u p pos vol, h2,
    countKey_save (save_playback_state db u p pos vol) u p pos2 vol2 (by omega),
    dictLookup_load_save (save_playback_state db u p pos vol) u p pos2 vol2⟩

/-- Witness for C7 starting from the empty table. -/
theorem playback_save_load_roundtrip_w :
    countKey [] 1 "movie.mp4" ≤ 1
    ∧ (dictLookup (load_playback_state
          (save_playback_state [] 1 "movie.mp4" 10 (1/2)) 1) "movie.mp4" = some (10, 1/2)
      ∧ countKey (save_playback_state [] 1 "movie.mp4" 10 (1/2)) 1 "movie.mp4" = 1
      ∧ countKey (save_playback_state
          (save_playback_state [] 1 "movie.mp4" 10 (1/2)) 1 "movie.mp4" 20 (1/4)) 1 "movie.mp4" = 1
      ∧ dictLookup (load_playback_state (save_playback_state
          (save_playback_state [] 1 "movie.mp4" 10 (1/2)) 1 "movie.mp4" 20 (1/4)) 1) "movie.mp4"
          = some (20, 1/4)) :=
  ⟨by decide, playback_save_load_roundtrip [] 1 "movie.mp4" 10 (1/2) 20 (1/4) (by decide)⟩

/-- C8 counterexample: with the backing store failing, the save is
swallowed (`except` only logs), nothing is persisted, and the POST
endpoint still answers HTTP 200 `success` — the failure is *not*
signalled to the caller. -/
theorem store_failure_reported_success :
    api_playback_state_post .failed [] 1
        (some { path := some "movie.mp4", position := some 10, volume := some (1/2) })
      = ((200, "success"), []) := rfl

/-- C8 amended: `save_playback_state` catches every backing-store failure
and only logs it, returning normally with no error signal; for any valid
POST body, /api/playback-state therefore replies 200 `success` even when
the store failed and the table is unchanged. -/
theorem store_failure_silent (db : PBDB) (u : Nat) (p : String) (pos : Rat)
    (vol : Option Rat) :
    api_playback_state_post .failed db u
        (some { path := some p, position := some pos, volume := vol })
      = ((200, "success"), db) := rfl

/-- C9 counterexample: the endpoint accepts and persists a volume of 5,
which does not lie in [0, 1] — no validation happens anywhere on the
path. -/
theorem volume_unvalidated_counterexample :
    api_playback_state_post .ok [] 1
        (some { path := some "movie.mp4", position := some 0, volume := some 5 })
      = ((200, "success"),
          [{ userId := 1, mediaPath := "movie.mp4", position := 0, volume := 5 }])
    ∧ ¬ ((5 : Rat) ≤ 1) :=
  ⟨by decide, by decide⟩

/-- C9 amended: the POST endpoint stores the client-supplied volume
exactly as given (`data.get('volume', 1.0)` only supplies the default 1.0
when the key is absent); the stored volume lies in [0, 1] only when the
client happens to send such a value. -/
theorem volume_stored_as_given (db : PBDB) (u : Nat) (p : String) (pos vol : Rat) :
    (api_playback_state_post .ok db u
        (some { path := some p, position := some pos, volume := some vol })).2
      = save_playback_state db u p pos vol
    ∧ (api_playback_state_post .ok db u
        (some { path := some p, position := some pos, volume := none })).2
      = save_playback_state db u p pos 1
    ∧ dictLookup (load_playback_state (save_playback_state db u p pos vol) u) p
      = some (pos, vol) :=
  ⟨rfl, rfl, dictLookup_load_save db u p pos vol⟩

/-- C10: any non-empty Range header whose first dash-separated field is
empty or contains a character no int literal can hold (an ASCII character
that is not a digit, underscore, sign or whitespace) makes `int()` raise,
and `serve_media` ends in the generic HTTP 500 path, whatever the media
root, filesystem and requested path; no range and no full file is served.
The empty field of an RFC suffix range `bytes=-500` is the standard
instance. -/
theorem bad_start_generic_500 (root : List Char) (fs : FS) (filename h : List Char)
    (hne : h ≠ [])
    (hbad : badIntField ((splitSep '-' (stripBytesEq h)).headI) = true) :
    serve_media root fs filename (some h) = .genericError := by
  have hparse : ∀ m : Nat, parseByteRange h m = .error .valueError := by
    intro m
    simp only [parseByteRange,
      getElem?_zero_of_ne_nil _ (splitSep_ne_nil '-' (stripBytesEq h)),
      pyInt?_eq_none_of_bad _ hbad]
  by_cases hdd : hasDotDot (safePathOf filename) = true
  · simp [serve_media, serve_media_inner, hdd]
  · cases hlk : fsLookup fs (pyJoin root (safePathOf filename)) with
    | none => simp [serve_media, serve_media_inner, hdd, hlk]
    | some content =>
      by_cases hext : extOf (pyJoin root (safePathOf filename)) ∈ SUPPORTED_MEDIA_TYPES
      · simp [serve_media, serve_media_inner, hdd, hlk, hext, hne, hparse]
      · simp [serve_media, serve_media_inner, hdd, hlk, hext]

/-- Witness for C10 at the suffix range `bytes=-500` (whose first
dash-separated field is empty). -/
theorem bad_start_generic_500_w :
    ("bytes=-500".data ≠ ([] : List Char))
    ∧ badIntField ((splitSep '-' (stripBytesEq "bytes=-500".data)).headI) = true
    ∧ serve_media mediaRoot fsMovie ("movie.mp4".data) (some ("bytes=-500".data))
        = .genericError :=
  ⟨by decide, by decide,
    bad_start_generic_500 mediaRoot fsMovie ("movie.mp4".data) ("bytes=-500".data)
      (by decide) (by decide)⟩

end MediaHub
